import Mathlib

/-!
Verification development for the Aetheria event-sourced world store.

The repository consists of:
  * `src/infra/database/models.py` — the SQLAlchemy schema of the store
    (worlds, event log, snapshots, agent/relationship projections);
  * `src/model/test.py`, `src/model/action.py` — a small entity/agent model
    with a `move` method;
  * `src/view/topdown.py`, `src/view/demo.py` — a tkinter top-down visualizer.

The store's *operations* (append, capture, state_at, delete, …) are described
by the specification but have no Python implementation in the repository: only
the schema (constraints, defaults, cascade rules) is code.  Those operations
are therefore modelled from the spec below, each marked `Modelled from the
spec:` in its doc comment, with every default, constraint and cascade taken
from the schema in `models.py`.  The pure integer code (`Agent.move`) is
embedded directly.  The visualizer's bounds/scaling routines run Python
float arithmetic (IEEE-754 binary64 rounding is behaviourally relevant:
padded bounds can round to equal values), so they are not modelled here.
-/

namespace Model

/-- The `Agent` class of `src/model/test.py`: entity fields
(`entity_id`, `name`, `x`, `y`) plus `gender`, `health`, `years`, `bag`.
Coordinates are integers (as used throughout `src/view/demo.py`). -/
structure AgentM where
  entity_id : Nat
  name : String
  x : Int
  y : Int
  gender : String
  health : Int
  years : Int
  bag : List String
deriving DecidableEq, Repr

/-- The method Agent.move from `src/model/test.py` lines 47–59: `"up"` increments `y`,
`"down"` decrements `y`, `"left"` decrements `x`, `"right"` increments `x`;
any other string leaves the agent unchanged.  The `actor` argument is unused,
exactly as in the source. -/
def AgentM.move (a : AgentM) (_actor : AgentM) (direction : String) : AgentM :=
  if direction = "up" then { a with y := a.y + 1 }
  else if direction = "down" then { a with y := a.y - 1 }
  else if direction = "left" then { a with x := a.x - 1 }
  else if direction = "right" then { a with x := a.x + 1 }
  else a

end Model

namespace Infra

/-- Opaque UUID identities (`_uuid_pk` in `models.py`); modelled as naturals
allocated from a store-wide fresh counter. -/
abbrev WorldId := Nat

abbrev AgentId := Nat

abbrev EventId := Nat

/-- The world lifecycle statuses of the spec:
status is one of CREATED, RUNNING, PAUSED, ARCHIVED. -/
inductive WorldStatus
  | CREATED
  | RUNNING
  | PAUSED
  | ARCHIVED
deriving DecidableEq, Repr

/-- The string stored in the `status` column (`String(16)` in the schema). -/
def WorldStatus.asString : WorldStatus → String
  | .CREATED => "CREATED"
  | .RUNNING => "RUNNING"
  | .PAUSED => "PAUSED"
  | .ARCHIVED => "ARCHIVED"

/-- A row of `worlds` (`class World`, `models.py` lines 82–125).
`created_at` (a server-side timestamp) is omitted: no claim concerns it. -/
structure World where
  world_id : WorldId
  name : Option String
  seed : Int
  generator_version : String
  current_tick : Int
  tick_unit_ms : Int
  status : String
deriving DecidableEq, Repr

/-- A row of `agents` (`class Agent`, `models.py` lines 184–215); the opaque
JSON payloads are kept as strings. -/
structure Agent where
  agent_id : AgentId
  world_id : WorldId
  name : String
  sex : Int
  birth_tick : Int
  death_tick : Option Int
  x : Int
  y : Int
  state_json : String
  personality_json : Option String
deriving DecidableEq, Repr

/-- A row of `relationships` (`class Relationship`, `models.py` lines
218–243): a directed edge keyed by the composite primary key
(world_id, a_agent_id, b_agent_id).  The `Float` attribute columns are
modelled exactly as rationals (no arithmetic is ever performed on them). -/
structure Relationship where
  world_id : WorldId
  a_agent_id : AgentId
  b_agent_id : AgentId
  affinity : ℚ
  trust : ℚ
  hostility : ℚ
  familiarity : ℚ
  last_tick : Int
  meta_json : Option String
deriving DecidableEq, Repr

/-- A row of `event_store` (`class EventStore`, `models.py` lines 250–295).
`tick` is `BigInteger`, `seq_in_tick` an `Integer` with check
`seq_in_tick >= 0`, so both are modelled as `Int`. -/
structure EventStore where
  event_id : EventId
  world_id : WorldId
  tick : Int
  seq_in_tick : Int
  event_type : String
  actor_agent_id : Option AgentId
  target_agent_id : Option AgentId
  x : Option Int
  y : Option Int
  payload_json : String
  caused_by_event_id : Option EventId
  schema_version : Int
deriving DecidableEq, Repr

/-- A row of `snapshots` (`class Snapshot`, `models.py` lines 302–331). -/
structure Snapshot where
  snapshot_id : Nat
  world_id : WorldId
  tick : Int
  world_state_json : String
  map_ref : Option String
deriving DecidableEq, Repr

/-- A row of `agent_snapshots` (`class AgentSnapshot`, `models.py` lines
334–349): a per-agent capture owned by its snapshot. -/
structure AgentSnapshot where
  snapshot_id : Nat
  agent_id : AgentId
  agent_state_json : String
deriving DecidableEq, Repr

/-- The database state: one list per table, plus the fresh-id counter that
models UUID generation. -/
structure Store where
  worlds : List World
  agents : List Agent
  relationships : List Relationship
  events : List EventStore
  snapshots : List Snapshot
  agent_snapshots : List AgentSnapshot
  next_id : Nat
deriving DecidableEq, Repr

/-- The empty database. -/
def Store.empty : Store := ⟨[], [], [], [], [], [], 0⟩

/-- The error taxonomy of spec §7. -/
inductive Err
  | NotFound
  | AlreadyExists
  | ReferentialIntegrity
  | SchemaMismatch
  | CorruptSnapshot
  | ChecksumMismatch
deriving DecidableEq, Repr

/-- Lookup a world row by id. -/
def findWorld (s : Store) (w : WorldId) : Option World :=
  s.worlds.find? (fun r => r.world_id == w)

/-- Modelled from the spec: the World Registry read; an unknown world id
fails with NotFound (§4.1 failure modes).  No Python implementation exists in
the repository (only the schema). -/
def readWorld (s : Store) (w : WorldId) : Except Err World :=
  match findWorld s w with
  | some r => .ok r
  | none => .error .NotFound

/-- Modelled from the spec: world creation.  Column defaults are the
schema's: `current_tick = 0`, `status = "CREATED"` (`models.py` lines
94–96). -/
def createWorld (s : Store) (name : Option String) (seed : Int)
    (gv : String) (tuMs : Int) : Store × World :=
  let w : World :=
    { world_id := s.next_id, name := name, seed := seed,
      generator_version := gv, current_tick := 0, tick_unit_ms := tuMs,
      status := "CREATED" }
  ({ s with worlds := s.worlds ++ [w], next_id := s.next_id + 1 }, w)

/-- Modelled from the spec: lifecycle status change; the spec constrains
status to the four-member enum but specifies no transition rules, so any
member may be stored.  No Python implementation exists in the repository. -/
def setStatus (s : Store) (w : WorldId) (st : WorldStatus) :
    Except Err Store :=
  match findWorld s w with
  | none => .error .NotFound
  | some _ =>
      .ok { s with worlds := s.worlds.map (fun r =>
              if r.world_id == w then { r with status := st.asString } else r) }

/-- Modelled from the spec: the explicit tick-advance operation (§9: the
current tick is a monotonic counter advanced only by this operation).  No
Python implementation exists in the repository. -/
def advanceTick (s : Store) (w : WorldId) : Except Err Store :=
  match findWorld s w with
  | none => .error .NotFound
  | some _ =>
      .ok { s with worlds := s.worlds.map (fun r =>
              if r.world_id == w then { r with current_tick := r.current_tick + 1 }
              else r) }

/-- Modelled from the spec: projection-side agent-row creation (§4.3: rows
are written only by projection-update logic).  Column defaults are the
schema's (`death_tick` NULL). -/
def createAgent (s : Store) (w : WorldId) (name : String) (sex : Int)
    (birth_tick : Int) (x y : Int) (state_json : String) :
    Except Err (Store × Agent) :=
  match findWorld s w with
  | none => .error .NotFound
  | some _ =>
      let a : Agent :=
        { agent_id := s.next_id, world_id := w, name := name, sex := sex,
          birth_tick := birth_tick, death_tick := none, x := x, y := y,
          state_json := state_json, personality_json := none }
      Except.ok ({ s with agents := s.agents ++ [a], next_id := s.next_id + 1 }, a)

/-- The continuous-valued attributes of a relationship edge. -/
structure RelValues where
  affinity : ℚ
  trust : ℚ
  hostility : ℚ
  familiarity : ℚ
deriving DecidableEq, Repr

/-- The relationship row written by an upsert at (w, a, b). -/
def relRow (w : WorldId) (a b : AgentId) (v : RelValues) (t : Int) :
    Relationship :=
  { world_id := w, a_agent_id := a, b_agent_id := b,
    affinity := v.affinity, trust := v.trust,
    hostility := v.hostility, familiarity := v.familiarity,
    last_tick := t, meta_json := none }

/-- An agent reference is valid when it names an agent row of the world. -/
def agentRefOk (s : Store) (w : WorldId) : Option AgentId → Bool
  | none => true
  | some aid => s.agents.any fun ag => ag.agent_id == aid && ag.world_id == w

/-- Modelled from the spec: projection-side relationship upsert, keyed by
the composite primary key (world_id, a_agent_id, b_agent_id) exactly as the
schema declares it — the pair order is NOT canonicalized (`models.py`
comment: 儲存有向邊 (a -> b)).  Dangling agent references fail with
ReferentialIntegrity (§7). -/
def setRelationship (s : Store) (w : WorldId) (a b : AgentId)
    (v : RelValues) (t : Int) : Except Err Store :=
  match findWorld s w with
  | none => .error .NotFound
  | some _ =>
      if !(agentRefOk s w (some a)) then
        .error .ReferentialIntegrity
      else if !(agentRefOk s w (some b)) then
        .error .ReferentialIntegrity
      else if s.relationships.any (fun r =>
          r.world_id == w && r.a_agent_id == a && r.b_agent_id == b) then
        Except.ok { s with relationships := s.relationships.map (fun r =>
                if r.world_id == w && r.a_agent_id == a && r.b_agent_id == b
                then relRow w a b v t else r) }
      else
        Except.ok { s with relationships := s.relationships ++ [relRow w a b v t] }

/-- The events of one (world, tick) cell of a log list, in insertion order. -/
def eventsIn (l : List EventStore) (w : WorldId) (t : Int) : List EventStore :=
  l.filter (fun e => e.world_id == w && e.tick == t)

/-- The events of one (world, tick) cell of the store's log. -/
def eventsAt (s : Store) (w : WorldId) (t : Int) : List EventStore :=
  eventsIn s.events w t

/-- Modelled from the spec: `append` (§4.1).  `seq_in_tick` is assigned by
the store as the next unused sequence for (world, tick), never supplied by
the caller; dangling actor/target references and a `caused_by` that does not
name an existing event of the same world with tick ≤ the new tick fail with
ReferentialIntegrity; an unknown world fails with NotFound. -/
def causeRefOk (s : Store) (w : WorldId) (tick : Int) :
    Option EventId → Bool
  | none => true
  | some pid =>
      match s.events.find? (fun e => e.event_id == pid) with
      | none => false
      | some p => p.world_id == w && decide (p.tick ≤ tick)

/-- The event row written by `append`: the store assigns seq_in_tick as the
next unused sequence for (world, tick) and a fresh id; the schema default
`schema_version = 1` applies. -/
def mkEvent (s : Store) (w : WorldId) (tick : Int) (event_type : String)
    (payload_json : String) (actor target : Option AgentId)
    (x y : Option Int) (caused_by : Option EventId) : EventStore :=
  { event_id := s.next_id, world_id := w, tick := tick,
    seq_in_tick := ((eventsAt s w tick).length : Int),
    event_type := event_type, actor_agent_id := actor,
    target_agent_id := target, x := x, y := y,
    payload_json := payload_json, caused_by_event_id := caused_by,
    schema_version := 1 }

def appendEvent (s : Store) (w : WorldId) (tick : Int) (event_type : String)
    (payload_json : String) (actor target : Option AgentId)
    (x y : Option Int) (caused_by : Option EventId) :
    Except Err (Store × EventStore) :=
  match findWorld s w with
  | none => .error .NotFound
  | some _ =>
      if !(agentRefOk s w actor) then .error .ReferentialIntegrity
      else if !(agentRefOk s w target) then .error .ReferentialIntegrity
      else if !(causeRefOk s w tick caused_by) then .error .ReferentialIntegrity
      else
        Except.ok
          ({ s with
              events := s.events ++
                [mkEvent s w tick event_type payload_json actor target x y caused_by],
              next_id := s.next_id + 1 },
           mkEvent s w tick event_type payload_json actor target x y caused_by)

/-- The snapshot row written by `capture`, with a fresh id. -/
def snapRow (s : Store) (w : WorldId) (tick : Int) (ws : String) : Snapshot :=
  { snapshot_id := s.next_id, world_id := w, tick := tick,
    world_state_json := ws, map_ref := none }

/-- The per-agent capture rows written by `capture`, owned by the new
snapshot. -/
def agentSnapRows (s : Store) (agent_states : List (AgentId × String)) :
    List AgentSnapshot :=
  agent_states.map (fun p =>
    { snapshot_id := s.next_id, agent_id := p.1, agent_state_json := p.2 })

/-- Modelled from the spec: `capture` (§4.2).  Write-once per (world, tick):
a duplicate fails with AlreadyExists (the schema's unique constraint
`uq_snapshot_world_tick`); the supplied per-agent states become
`agent_snapshots` rows owned by the new snapshot. -/
def capture (s : Store) (w : WorldId) (tick : Int) (world_state_json : String)
    (agent_states : List (AgentId × String)) :
    Except Err (Store × Snapshot) :=
  match findWorld s w with
  | none => .error .NotFound
  | some _ =>
      if s.snapshots.any (fun sn => sn.world_id == w && sn.tick == tick) then
        .error .AlreadyExists
      else
        Except.ok
          ({ s with
              snapshots := s.snapshots ++ [snapRow s w tick world_state_json],
              agent_snapshots := s.agent_snapshots ++ agentSnapRows s agent_states,
              next_id := s.next_id + 1 },
           snapRow s w tick world_state_json)

/-- Modelled from the spec: world deletion.  Every `ondelete="CASCADE"`
edge of the schema is applied: events, snapshots, agents and relationships
of the world are removed, and `agent_snapshots` rows owned by a removed
snapshot are removed with it. -/
def deleteWorld (s : Store) (w : WorldId) : Except Err Store :=
  match findWorld s w with
  | none => .error .NotFound
  | some _ =>
      Except.ok
        { s with
            worlds := s.worlds.filter (fun r => !(r.world_id == w)),
            agents := s.agents.filter (fun a => !(a.world_id == w)),
            relationships := s.relationships.filter (fun r => !(r.world_id == w)),
            events := s.events.filter (fun e => !(e.world_id == w)),
            snapshots := s.snapshots.filter (fun sn => !(sn.world_id == w)),
            agent_snapshots := s.agent_snapshots.filter (fun asn =>
              !((s.snapshots.filter (fun sn => sn.world_id == w)).any
                 (fun sn => sn.snapshot_id == asn.snapshot_id))) }

/-- The total order of the log: (tick, seq_in_tick) lexicographically
(spec §4.1: events are produced ordered by (tick, seq_in_tick) ascending). -/
def keyLe (e f : EventStore) : Bool :=
  decide (e.tick < f.tick) ||
    (e.tick == f.tick && decide (e.seq_in_tick ≤ f.seq_in_tick))

/-- Insert an event into a (tick, seq_in_tick)-sorted list. -/
def insertEv (e : EventStore) : List EventStore → List EventStore
  | [] => [e]
  | f :: fs => if keyLe e f then e :: f :: fs else f :: insertEv e fs

/-- Stable insertion sort by (tick, seq_in_tick). -/
def sortEv : List EventStore → List EventStore
  | [] => []
  | e :: es => insertEv e (sortEv es)

/-- Modelled from the spec: `read` (§4.1) — the events of a world with tick
in [from_tick, to_tick], ordered by (tick, seq_in_tick) ascending; an
unknown world fails with NotFound. -/
def readEvents (s : Store) (w : WorldId) (fromTick toTick : Int) :
    Except Err (List EventStore) :=
  match findWorld s w with
  | none => .error .NotFound
  | some _ =>
      .ok (sortEv (s.events.filter (fun e =>
        e.world_id == w && decide (fromTick ≤ e.tick) && decide (e.tick ≤ toTick))))

/-- Modelled from the spec: `latest_before` (§4.2) — the snapshot of the
world with the greatest tick ≤ the given tick, or none. -/
def latest_before (s : Store) (w : WorldId) (tick : Int) : Option Snapshot :=
  s.snapshots.foldl (fun acc sn =>
    if sn.world_id == w && decide (sn.tick ≤ tick) then
      match acc with
      | none => some sn
      | some q => if decide (q.tick < sn.tick) then some sn else some q
    else acc) none

/-- Modelled from the spec: full replay (§4.4) — fold the whole log of a
world up to the target tick, in (tick, seq_in_tick) order, through the
caller-registered pure handler, starting from the empty/default state. -/
def replayUpTo {σ : Type} (h : σ → EventStore → σ) (init : σ)
    (log : List EventStore) (t : Int) : σ :=
  (sortEv (log.filter (fun e => decide (e.tick ≤ t)))).foldl h init

/-- Modelled from the spec: suffix replay (§4.4) — fold the events with
tick in (lo, t], in (tick, seq_in_tick) order, from a snapshot state. -/
def replayRange {σ : Type} (h : σ → EventStore → σ) (st : σ)
    (log : List EventStore) (lo t : Int) : σ :=
  (sortEv (log.filter (fun e =>
    decide (lo < e.tick) && decide (e.tick ≤ t)))).foldl h st

/-- The latest snapshot (tick, state) pair at tick ≤ t, or none. -/
def latestSnapBefore {σ : Type} (snaps : List (Int × σ)) (t : Int) :
    Option (Int × σ) :=
  snaps.foldl (fun acc p =>
    if decide (p.1 ≤ t) then
      match acc with
      | none => some p
      | some q => if decide (q.1 < p.1) then some p else some q
    else acc) none

/-- Modelled from the spec: `state_at` (§4.4) — start from the latest
snapshot at tick ≤ t (or the default state if none) and fold the log suffix
in (tick, seq_in_tick) order. -/
def state_at {σ : Type} (h : σ → EventStore → σ) (init : σ)
    (log : List EventStore) (snaps : List (Int × σ)) (t : Int) : σ :=
  match latestSnapBefore snaps t with
  | none => replayUpTo h init log t
  | some p => replayRange h p.2 log p.1 t

/-- The operations of the store, as spec §4 names them; this is the
alphabet of the reachable-state semantics. -/
inductive Op
  | createWorld (name : Option String) (seed : Int) (gv : String) (tuMs : Int)
  | setStatus (w : WorldId) (st : WorldStatus)
  | advanceTick (w : WorldId)
  | createAgent (w : WorldId) (name : String) (sex : Int) (birth : Int)
      (x y : Int) (state : String)
  | setRelationship (w : WorldId) (a b : AgentId) (v : RelValues) (t : Int)
  | append (w : WorldId) (tick : Int) (etype payload : String)
      (actor target : Option AgentId) (x y : Option Int) (cb : Option EventId)
  | capture (w : WorldId) (tick : Int) (wstate : String)
      (astates : List (AgentId × String))
  | deleteWorld (w : WorldId)

/-- Run one operation; a failed operation surfaces its error to the caller
(§7) and leaves the store unchanged. -/
def applyOp (s : Store) : Op → Store
  | .createWorld n sd gv tu => (createWorld s n sd gv tu).1
  | .setStatus w st =>
      match setStatus s w st with
      | .ok s' => s'
      | .error _ => s
  | .advanceTick w =>
      match advanceTick s w with
      | .ok s' => s'
      | .error _ => s
  | .createAgent w n sx b x y st =>
      match createAgent s w n sx b x y st with
      | .ok p => p.1
      | .error _ => s
  | .setRelationship w a b v t =>
      match setRelationship s w a b v t with
      | .ok s' => s'
      | .error _ => s
  | .append w t et pl a tg x y cb =>
      match appendEvent s w t et pl a tg x y cb with
      | .ok p => p.1
      | .error _ => s
  | .capture w t ws as' =>
      match capture s w t ws as' with
      | .ok p => p.1
      | .error _ => s
  | .deleteWorld w =>
      match deleteWorld s w with
      | .ok s' => s'
      | .error _ => s

/-- The store produced by a sequence of operations from the empty store. -/
def run (ops : List Op) : Store := ops.foldl applyOp Store.empty

/-- A store is reachable when some operation history produces it. -/
def Reachable (s : Store) : Prop := ∃ ops, run ops = s

/-- Gap-free sequence numbers: within every (world, tick) cell of the log
the stored seq_in_tick values are exactly 0, 1, …, n−1 in insertion order. -/
def SeqList (l : List EventStore) : Prop :=
  ∀ w t, (eventsIn l w t).map EventStore.seq_in_tick
       = (List.range (eventsIn l w t).length).map Int.ofNat

/-- Causal integrity: every caused_by reference names a stored event of the
same world with tick ≤ the referencing event's tick. -/
def CauseList (l : List EventStore) : Prop :=
  ∀ e ∈ l, ∀ pid, e.caused_by_event_id = some pid →
    ∃ p ∈ l, p.event_id = pid ∧ p.world_id = e.world_id ∧ p.tick ≤ e.tick

/-- A world row's status is one of the four enum members. -/
def StatusOkW (r : World) : Prop :=
  r.status = "CREATED" ∨ r.status = "RUNNING" ∨
  r.status = "PAUSED" ∨ r.status = "ARCHIVED"

/-- The conjunction of the structural invariants of the store that the
schema's constraints and the spec's preconditions are meant to maintain. -/
def Inv (s : Store) : Prop :=
  SeqList s.events ∧
  CauseList s.events ∧
  (s.snapshots.map (fun sn => (sn.world_id, sn.tick))).Nodup ∧
  (∀ r ∈ s.worlds, StatusOkW r) ∧
  (s.relationships.map (fun r => (r.world_id, r.a_agent_id, r.b_agent_id))).Nodup ∧
  (s.snapshots.map Snapshot.snapshot_id).Nodup ∧
  (∀ sn ∈ s.snapshots, sn.snapshot_id < s.next_id) ∧
  (∀ a ∈ s.agent_snapshots, ∃ sn ∈ s.snapshots, sn.snapshot_id = a.snapshot_id)

theorem eventsIn_append (l₁ l₂ : List EventStore) (w : WorldId) (t : Int) :
    eventsIn (l₁ ++ l₂) w t = eventsIn l₁ w t ++ eventsIn l₂ w t := by
  simp [eventsIn, List.filter_append]

theorem eventsIn_singleton_self (ev : EventStore) :
    eventsIn [ev] ev.world_id ev.tick = [ev] := by
  simp [eventsIn]

theorem eventsIn_singleton_ne (ev : EventStore) (w : WorldId) (t : Int)
    (h : ¬(ev.world_id = w ∧ ev.tick = t)) : eventsIn [ev] w t = [] := by
  simp only [eventsIn, List.filter, Bool.and_eq_true, beq_iff_eq]
  split
  · next hcond =>
      rw [Bool.and_eq_true, beq_iff_eq, beq_iff_eq] at hcond
      exact absurd hcond h
  · rfl

theorem seqList_append (l : List EventStore) (ev : EventStore)
    (hseq : ev.seq_in_tick = ((eventsIn l ev.world_id ev.tick).length : Int))
    (h : SeqList l) : SeqList (l ++ [ev]) := by
  intro w t
  rw [eventsIn_append]
  by_cases hk : ev.world_id = w ∧ ev.tick = t
  · obtain ⟨hw, ht⟩ := hk
    subst hw; subst ht
    rw [eventsIn_singleton_self]
    have hlen : (eventsIn l ev.world_id ev.tick ++ [ev]).length
        = (eventsIn l ev.world_id ev.tick).length + 1 := by simp
    rw [List.map_append, hlen, List.range_succ, List.map_append,
        h ev.world_id ev.tick]
    simp [hseq, Int.ofNat_eq_natCast]
  · rw [eventsIn_singleton_ne ev w t hk]
    simp [h w t]

theorem causeList_append (l : List EventStore) (ev : EventStore)
    (hev : ∀ pid, ev.caused_by_event_id = some pid →
      ∃ p ∈ l, p.event_id = pid ∧ p.world_id = ev.world_id ∧ p.tick ≤ ev.tick)
    (h : CauseList l) : CauseList (l ++ [ev]) := by
  intro e he pid hp
  rcases List.mem_append.1 he with he' | he'
  · obtain ⟨p, hpl, h1, h2, h3⟩ := h e he' pid hp
    exact ⟨p, List.mem_append.2 (Or.inl hpl), h1, h2, h3⟩
  · have hev' : e = ev := by simpa using he'
    subst hev'
    obtain ⟨p, hpl, h1, h2, h3⟩ := hev pid hp
    exact ⟨p, List.mem_append.2 (Or.inl hpl), h1, h2, h3⟩

theorem eventsIn_filter_world (l : List EventStore) (w w' : WorldId) (t : Int) :
    eventsIn (l.filter (fun e => !(e.world_id == w))) w' t
      = if w' = w then [] else eventsIn l w' t := by
  by_cases h2 : w' = w
  · subst h2
    rw [if_pos rfl]
    simp only [eventsIn]
    rw [List.filter_eq_nil_iff]
    intro a ha
    have hP := (List.mem_filter.1 ha).2
    simp only [Bool.not_eq_true', beq_eq_false_iff_ne, ne_eq] at hP
    simp [hP]
  · rw [if_neg h2]
    simp only [eventsIn]
    rw [List.filter_filter]
    apply List.filter_congr
    intro a _
    by_cases hK : (a.world_id == w' && a.tick == t) = true
    · have hK2 := hK
      simp only [Bool.and_eq_true, beq_iff_eq] at hK2
      have hw' : a.world_id = w' := hK2.1
      have hP : (!(a.world_id == w)) = true := by
        simp only [Bool.not_eq_true', beq_eq_false_iff_ne, ne_eq, hw']
        exact h2
      rw [hK, hP]
      rfl
    · have hK' : (a.world_id == w' && a.tick == t) = false :=
        Bool.eq_false_iff.mpr hK
      rw [hK']
      simp

theorem seqList_filter_world (l : List EventStore) (w : WorldId)
    (h : SeqList l) : SeqList (l.filter (fun e => !(e.world_id == w))) := by
  intro w' t
  rw [eventsIn_filter_world]
  by_cases h2 : w' = w
  · simp [h2]
  · simp only [if_neg h2]
    exact h w' t

theorem causeList_filter_world (l : List EventStore) (w : WorldId)
    (h : CauseList l) : CauseList (l.filter (fun e => !(e.world_id == w))) := by
  intro e he pid hp
  have he' := List.mem_filter.1 he
  obtain ⟨p, hpl, h1, h2, h3⟩ := h e he'.1 pid hp
  refine ⟨p, List.mem_filter.2 ⟨hpl, ?_⟩, h1, h2, h3⟩
  have hb : (!(e.world_id == w)) = true := he'.2
  simpa [h2] using hb

theorem inv_empty : Inv Store.empty := by
  refine ⟨?_, ?_, ?_, ?_, ?_, ?_, ?_, ?_⟩ <;>
    simp [Store.empty, SeqList, CauseList, eventsIn]

theorem inv_createWorld (s : Store) (n : Option String) (sd : Int)
    (gv : String) (tu : Int) (h : Inv s) : Inv (createWorld s n sd gv tu).1 := by
  obtain ⟨h1, h2, h3, h4, h5, h6, h7, h8⟩ := h
  refine ⟨h1, h2, h3, ?_, h5, h6, ?_, h8⟩
  · intro r hr
    simp only [createWorld] at hr
    rcases List.mem_append.1 hr with hr' | hr'
    · exact h4 r hr'
    · rw [List.mem_singleton] at hr'
      subst hr'
      left; rfl
  · intro sn hsn
    simp only [createWorld] at hsn ⊢
    exact Nat.lt_succ_of_lt (h7 sn hsn)

theorem inv_setStatus (s : Store) (w : WorldId) (st : WorldStatus)
    (s' : Store) (hok : setStatus s w st = .ok s') (h : Inv s) : Inv s' := by
  unfold setStatus at hok
  cases hfw : findWorld s w with
  | none => rw [hfw] at hok; cases hok
  | some wr =>
      rw [hfw] at hok
      cases hok
      obtain ⟨h1, h2, h3, h4, h5, h6, h7, h8⟩ := h
      refine ⟨h1, h2, h3, ?_, h5, h6, h7, h8⟩
      intro r hr
      rcases List.mem_map.1 hr with ⟨r0, hr0, rfl⟩
      by_cases hid : (r0.world_id == w) = true
      · simp only [if_pos hid]
        cases st <;> simp [StatusOkW, WorldStatus.asString]
      · simp only [Bool.not_eq_true] at hid
        simp only [hid]
        simpa using h4 r0 hr0

theorem inv_advanceTick (s : Store) (w : WorldId) (s' : Store)
    (hok : advanceTick s w = .ok s') (h : Inv s) : Inv s' := by
  unfold advanceTick at hok
  cases hfw : findWorld s w with
  | none => rw [hfw] at hok; cases hok
  | some wr =>
      rw [hfw] at hok
      cases hok
      obtain ⟨h1, h2, h3, h4, h5, h6, h7, h8⟩ := h
      refine ⟨h1, h2, h3, ?_, h5, h6, h7, h8⟩
      intro r hr
      rcases List.mem_map.1 hr with ⟨r0, hr0, rfl⟩
      by_cases hid : (r0.world_id == w) = true
      · simp only [if_pos hid]
        have := h4 r0 hr0
        simpa [StatusOkW] using this
      · simp only [Bool.not_eq_true] at hid
        simp only [hid]
        simpa using h4 r0 hr0

theorem inv_createAgent (s : Store) (w : WorldId) (n : String) (sx : Int)
    (b : Int) (x y : Int) (stj : String) (s' : Store) (a : Agent)
    (hok : createAgent s w n sx b x y stj = .ok (s', a)) (h : Inv s) :
    Inv s' := by
  unfold createAgent at hok
  cases hfw : findWorld s w with
  | none => rw [hfw] at hok; cases hok
  | some wr =>
      rw [hfw] at hok
      injection hok with hok'
      injection hok' with hs ha
      subst hs
      obtain ⟨h1, h2, h3, h4, h5, h6, h7, h8⟩ := h
      refine ⟨h1, h2, h3, h4, h5, h6, ?_, h8⟩
      intro sn hsn
      exact Nat.lt_succ_of_lt (h7 sn hsn)

theorem inv_setRelationship (s : Store) (w : WorldId) (a b : AgentId)
    (v : RelValues) (t : Int) (s' : Store)
    (hok : setRelationship s w a b v t = .ok s') (h : Inv s) : Inv s' := by
  unfold setRelationship at hok
  cases hfw : findWorld s w with
  | none => rw [hfw] at hok; cases hok
  | some wr =>
      rw [hfw] at hok
      by_cases hc1 : (!(agentRefOk s w (some a))) = true
      · rw [if_pos hc1] at hok; cases hok
      · rw [if_neg hc1] at hok
        by_cases hc2 : (!(agentRefOk s w (some b))) = true
        · rw [if_pos hc2] at hok; cases hok
        · rw [if_neg hc2] at hok
          by_cases hany : (s.relationships.any (fun r =>
              r.world_id == w && r.a_agent_id == a && r.b_agent_id == b)) = true
          · rw [if_pos hany] at hok
            cases hok
            obtain ⟨h1, h2, h3, h4, h5, h6, h7, h8⟩ := h
            refine ⟨h1, h2, h3, h4, ?_, h6, h7, h8⟩
            rw [List.map_map]
            have hcong : s.relationships.map
                ((fun r : Relationship =>
                    (r.world_id, r.a_agent_id, r.b_agent_id)) ∘
                 (fun r => if r.world_id == w && r.a_agent_id == a &&
                      r.b_agent_id == b then relRow w a b v t else r))
                = s.relationships.map
                    (fun r => (r.world_id, r.a_agent_id, r.b_agent_id)) := by
              apply List.map_congr_left
              intro r _
              by_cases hc : (r.world_id == w && r.a_agent_id == a &&
                  r.b_agent_id == b) = true
              · have hc3 := hc
                simp only [Bool.and_eq_true, beq_iff_eq] at hc3
                simp [Function.comp, hc, relRow, hc3.1.1, hc3.1.2, hc3.2]
              · simp [Function.comp, hc]
            rw [hcong]
            exact h5
          · rw [if_neg hany] at hok
            cases hok
            obtain ⟨h1, h2, h3, h4, h5, h6, h7, h8⟩ := h
            refine ⟨h1, h2, h3, h4, ?_, h6, h7, h8⟩
            rw [List.map_append, List.nodup_append]
            refine ⟨h5, by simp, ?_⟩
            intro p hp hp2
            rcases List.mem_map.1 hp with ⟨q, hq, rfl⟩
            have hp3 : (q.world_id, q.a_agent_id, q.b_agent_id)
                = (w, a, b) := by simpa [relRow] using hp2
            apply hany
            apply List.any_eq_true.2
            refine ⟨q, hq, ?_⟩
            have h1' : q.world_id = w := congrArg Prod.fst hp3
            have h2' : q.a_agent_id = a := congrArg (fun p => p.2.1) hp3
            have h3' : q.b_agent_id = b := congrArg (fun p => p.2.2) hp3
            simp [h1', h2', h3']

theorem appendEvent_ok (s : Store) (w : WorldId) (tick : Int)
    (et pl : String) (ac tg : Option AgentId) (x y : Option Int)
    (cb : Option EventId) (s' : Store) (ev : EventStore)
    (hok : appendEvent s w tick et pl ac tg x y cb = .ok (s', ev)) :
    ev = mkEvent s w tick et pl ac tg x y cb ∧
    s' = { s with events := s.events ++ [ev], next_id := s.next_id + 1 } ∧
    causeRefOk s w tick cb = true := by
  unfold appendEvent at hok
  cases hfw : findWorld s w with
  | none => rw [hfw] at hok; cases hok
  | some wr =>
      rw [hfw] at hok
      by_cases hc1 : (!(agentRefOk s w ac)) = true
      · rw [if_pos hc1] at hok; cases hok
      · rw [if_neg hc1] at hok
        by_cases hc2 : (!(agentRefOk s w tg)) = true
        · rw [if_pos hc2] at hok; cases hok
        · rw [if_neg hc2] at hok
          by_cases hc3 : (!(causeRefOk s w tick cb)) = true
          · rw [if_pos hc3] at hok; cases hok
          · rw [if_neg hc3] at hok
            injection hok with hok'
            injection hok' with hs hev
            subst hev
            subst hs
            refine ⟨rfl, rfl, ?_⟩
            simpa using hc3

theorem causeRefOk_valid (s : Store) (w : WorldId) (tick : Int)
    (cb : Option EventId) (hco : causeRefOk s w tick cb = true) :
    ∀ pid, cb = some pid →
      ∃ p ∈ s.events, p.event_id = pid ∧ p.world_id = w ∧ p.tick ≤ tick := by
  intro pid hpid
  subst hpid
  simp only [causeRefOk] at hco
  cases hf : s.events.find? (fun e => e.event_id == pid) with
  | none => rw [hf] at hco; cases hco
  | some p =>
      rw [hf] at hco
      have hmem := List.mem_of_find?_eq_some hf
      have hpr := List.find?_some hf
      simp only [Bool.and_eq_true, beq_iff_eq, decide_eq_true_eq] at hco hpr
      exact ⟨p, hmem, hpr, hco.1, hco.2⟩

theorem inv_append (s : Store) (w : WorldId) (tick : Int)
    (et pl : String) (ac tg : Option AgentId) (x y : Option Int)
    (cb : Option EventId) (s' : Store) (ev : EventStore)
    (hok : appendEvent s w tick et pl ac tg x y cb = .ok (s', ev))
    (h : Inv s) : Inv s' := by
  obtain ⟨hev, hs, hco⟩ := appendEvent_ok s w tick et pl ac tg x y cb s' ev hok
  subst hev
  subst hs
  obtain ⟨h1, h2, h3, h4, h5, h6, h7, h8⟩ := h
  refine ⟨?_, ?_, h3, h4, h5, h6, ?_, h8⟩
  · exact seqList_append s.events _ rfl h1
  · apply causeList_append s.events _ ?_ h2
    intro pid hpid
    have hpid' : cb = some pid := hpid
    obtain ⟨p, hpl, hp1, hp2, hp3⟩ := causeRefOk_valid s w tick cb hco pid hpid'
    exact ⟨p, hpl, hp1, hp2, hp3⟩
  · intro sn hsn
    exact Nat.lt_succ_of_lt (h7 sn hsn)

theorem capture_ok (s : Store) (w : WorldId) (tick : Int) (ws : String)
    (ast : List (AgentId × String)) (s' : Store) (sn : Snapshot)
    (hok : capture s w tick ws ast = .ok (s', sn)) :
    sn = snapRow s w tick ws ∧
    s' = { s with
            snapshots := s.snapshots ++ [snapRow s w tick ws],
            agent_snapshots := s.agent_snapshots ++ agentSnapRows s ast,
            next_id := s.next_id + 1 } ∧
    (s.snapshots.any (fun q => q.world_id == w && q.tick == tick)) = false := by
  unfold capture at hok
  cases hfw : findWorld s w with
  | none => rw [hfw] at hok; cases hok
  | some wr =>
      rw [hfw] at hok
      by_cases hany : (s.snapshots.any (fun q =>
          q.world_id == w && q.tick == tick)) = true
      · rw [if_pos hany] at hok; cases hok
      · rw [if_neg hany] at hok
        injection hok with hok'
        injection hok' with hs hsn
        subst hsn
        subst hs
        exact ⟨rfl, rfl, Bool.eq_false_iff.mpr hany⟩

theorem inv_capture (s : Store) (w : WorldId) (tick : Int) (ws : String)
    (ast : List (AgentId × String)) (s' : Store) (sn : Snapshot)
    (hok : capture s w tick ws ast = .ok (s', sn)) (h : Inv s) : Inv s' := by
  obtain ⟨hsn, hs, hany⟩ := capture_ok s w tick ws ast s' sn hok
  subst hs
  obtain ⟨h1, h2, h3, h4, h5, h6, h7, h8⟩ := h
  have hfresh : ∀ q ∈ s.snapshots, q.snapshot_id ≠ s.next_id :=
    fun q hq => Nat.ne_of_lt (h7 q hq)
  refine ⟨h1, h2, ?_, h4, h5, ?_, ?_, ?_⟩
  · rw [List.map_append, List.nodup_append]
    refine ⟨h3, by simp, ?_⟩
    intro p hp hp2
    rcases List.mem_map.1 hp with ⟨q, hq, rfl⟩
    have hp3 : (q.world_id, q.tick) = (w, tick) := by
      simpa [snapRow] using hp2
    have hw : q.world_id = w := congrArg Prod.fst hp3
    have ht : q.tick = tick := congrArg Prod.snd hp3
    have : s.snapshots.any (fun q => q.world_id == w && q.tick == tick) = true :=
      List.any_eq_true.2 ⟨q, hq, by simp [hw, ht]⟩
    rw [hany] at this
    cases this
  · rw [List.map_append, List.nodup_append]
    refine ⟨h6, by simp, ?_⟩
    intro p hp hp2
    rcases List.mem_map.1 hp with ⟨q, hq, rfl⟩
    have hp3 : q.snapshot_id = s.next_id := by simpa [snapRow] using hp2
    exact hfresh q hq hp3
  · intro q hq
    rcases List.mem_append.1 hq with hq' | hq'
    · exact Nat.lt_succ_of_lt (h7 q hq')
    · have : q = snapRow s w tick ws := by simpa using hq'
      subst this
      exact Nat.lt_succ_self _
  · intro a ha
    rcases List.mem_append.1 ha with ha' | ha'
    · obtain ⟨q, hq, hid⟩ := h8 a ha'
      exact ⟨q, List.mem_append.2 (Or.inl hq), hid⟩
    · refine ⟨snapRow s w tick ws, List.mem_append.2 (Or.inr (by simp)), ?_⟩
      rcases List.mem_map.1 ha' with ⟨p, _, rfl⟩
      rfl

theorem deleteWorld_ok (s : Store) (w : WorldId) (s' : Store)
    (hok : deleteWorld s w = .ok s') :
    s' = { s with
      worlds := s.worlds.filter (fun r => !(r.world_id == w)),
      agents := s.agents.filter (fun a => !(a.world_id == w)),
      relationships := s.relationships.filter (fun r => !(r.world_id == w)),
      events := s.events.filter (fun e => !(e.world_id == w)),
      snapshots := s.snapshots.filter (fun sn => !(sn.world_id == w)),
      agent_snapshots := s.agent_snapshots.filter (fun asn =>
        !((s.snapshots.filter (fun sn => sn.world_id == w)).any
           (fun sn => sn.snapshot_id == asn.snapshot_id))) } := by
  unfold deleteWorld at hok
  cases hfw : findWorld s w with
  | none => rw [hfw] at hok; cases hok
  | some wr =>
      rw [hfw] at hok
      cases hok
      rfl

theorem inv_deleteWorld (s : Store) (w : WorldId) (s' : Store)
    (hok : deleteWorld s w = .ok s') (h : Inv s) : Inv s' := by
  rw [deleteWorld_ok s w s' hok]
  obtain ⟨h1, h2, h3, h4, h5, h6, h7, h8⟩ := h
  refine ⟨seqList_filter_world s.events w h1,
          causeList_filter_world s.events w h2, ?_, ?_, ?_, ?_, ?_, ?_⟩
  · exact ((List.filter_sublist _).map _).nodup h3
  · intro r hr
    exact h4 r (List.mem_of_mem_filter hr)
  · exact ((List.filter_sublist _).map _).nodup h5
  · exact ((List.filter_sublist _).map _).nodup h6
  · intro sn hsn
    exact h7 sn (List.mem_of_mem_filter hsn)
  · intro a ha
    have ha' := List.mem_filter.1 ha
    obtain ⟨q, hq, hid⟩ := h8 a ha'.1
    have hdead : ((s.snapshots.filter (fun sn => sn.world_id == w)).any
        (fun sn => sn.snapshot_id == a.snapshot_id)) = false := by
      have hb := ha'.2
      simpa using hb
    have hqlive : (q.world_id == w) = false := by
      by_contra hcontra
      have hq2 : (q.world_id == w) = true := by
        cases hqw : (q.world_id == w) with
        | false => exact absurd hqw hcontra
        | true => rfl
      have : (s.snapshots.filter (fun sn => sn.world_id == w)).any
          (fun sn => sn.snapshot_id == a.snapshot_id) = true := by
        apply List.any_eq_true.2
        refine ⟨q, List.mem_filter.2 ⟨hq, hq2⟩, by simp [hid]⟩
      rw [hdead] at this
      cases this
    refine ⟨q, List.mem_filter.2 ⟨hq, ?_⟩, hid⟩
    simp [hqlive]

theorem inv_applyOp (s : Store) (op : Op) (h : Inv s) : Inv (applyOp s op) := by
  cases op with
  | createWorld n sd gv tu => exact inv_createWorld s n sd gv tu h
  | setStatus w st =>
      simp only [applyOp]
      cases hok : setStatus s w st with
      | ok s' => exact inv_setStatus s w st s' hok h
      | error e => exact h
  | advanceTick w =>
      simp only [applyOp]
      cases hok : advanceTick s w with
      | ok s' => exact inv_advanceTick s w s' hok h
      | error e => exact h
  | createAgent w n sx b x y st =>
      simp only [applyOp]
      cases hok : createAgent s w n sx b x y st with
      | ok p => exact inv_createAgent s w n sx b x y st p.1 p.2 hok h
      | error e => exact h
  | setRelationship w a b v t =>
      simp only [applyOp]
      cases hok : setRelationship s w a b v t with
      | ok s' => exact inv_setRelationship s w a b v t s' hok h
      | error e => exact h
  | append w t et pl ac tg x y cb =>
      simp only [applyOp]
      cases hok : appendEvent s w t et pl ac tg x y cb with
      | ok p => exact inv_append s w t et pl ac tg x y cb p.1 p.2 hok h
      | error e => exact h
  | capture w t ws ast =>
      simp only [applyOp]
      cases hok : capture s w t ws ast with
      | ok p => exact inv_capture s w t ws ast p.1 p.2 hok h
      | error e => exact h
  | deleteWorld w =>
      simp only [applyOp]
      cases hok : deleteWorld s w with
      | ok s' => exact inv_deleteWorld s w s' hok h
      | error e => exact h

theorem inv_foldl (ops : List Op) :
    ∀ (s : Store), Inv s → Inv (ops.foldl applyOp s) := by
  induction ops with
  | nil => intro s hs; exact hs
  | cons op ops ih => intro s hs; exact ih _ (inv_applyOp s op hs)

theorem inv_run (ops : List Op) : Inv (run ops) :=
  inv_foldl ops Store.empty inv_empty

theorem reachable_inv (s : Store) (h : Reachable s) : Inv s := by
  obtain ⟨ops, rfl⟩ := h
  exact inv_run ops

theorem mem_insertEv (e x : EventStore) (l : List EventStore) :
    x ∈ insertEv e l ↔ x = e ∨ x ∈ l := by
  induction l with
  | nil => simp [insertEv]
  | cons f fs ih =>
      simp only [insertEv]
      by_cases hc : keyLe e f = true
      · rw [if_pos hc]
        simp only [List.mem_cons]
      · rw [if_neg hc]
        simp only [List.mem_cons, ih]
        tauto

theorem mem_sortEv (x : EventStore) (l : List EventStore) :
    x ∈ sortEv l ↔ x ∈ l := by
  induction l with
  | nil => simp [sortEv]
  | cons e es ih =>
      simp only [sortEv, mem_insertEv, List.mem_cons, ih]

theorem insertEv_append_left (e : EventStore) (A B : List EventStore)
    (hB : ∀ b ∈ B, keyLe e b = true) :
    insertEv e (A ++ B) = insertEv e A ++ B := by
  induction A with
  | nil =>
      cases B with
      | nil => rfl
      | cons b bs =>
          simp only [List.nil_append, insertEv]
          rw [if_pos (hB b (List.mem_cons_self _ _))]
          rfl
  | cons f fs ih =>
      simp only [List.cons_append, insertEv]
      by_cases hc : keyLe e f = true
      · rw [if_pos hc, if_pos hc]
        rfl
      · rw [if_neg hc, if_neg hc, List.cons_append]
        congr 1

theorem insertEv_append_right (e : EventStore) (A B : List EventStore)
    (hA : ∀ a ∈ A, keyLe e a = false) :
    insertEv e (A ++ B) = A ++ insertEv e B := by
  induction A with
  | nil => rfl
  | cons f fs ih =>
      simp only [List.cons_append, insertEv]
      have hf : ¬(keyLe e f = true) := by
        rw [hA f (List.mem_cons_self _ _)]
        simp
      rw [if_neg hf]
      congr 1
      exact ih (fun a ha => hA a (List.mem_cons_of_mem _ ha))

theorem sortEv_partition (p : EventStore → Bool)
    (hcl : ∀ e f, p e = true → p f = false →
      keyLe e f = true ∧ keyLe f e = false)
    (l : List EventStore) :
    sortEv l = sortEv (l.filter p) ++ sortEv (l.filter (fun e => !(p e))) := by
  induction l with
  | nil => rfl
  | cons e es ih =>
      simp only [sortEv, List.filter_cons]
      by_cases hp : p e = true
      · rw [if_pos hp]
        have hnp : (!(p e)) = false := by simp [hp]
        rw [hnp]
        simp only [Bool.false_eq_true, if_false, sortEv]
        rw [ih]
        apply insertEv_append_left
        intro b hb
        have hbmem : b ∈ es.filter (fun e => !(p e)) := (mem_sortEv b _).1 hb
        have hbp : (!(p b)) = true := (List.mem_filter.1 hbmem).2
        have hbp' : p b = false := by simpa using hbp
        exact (hcl e b hp hbp').1
      · have hp' : p e = false := Bool.eq_false_iff.mpr hp
        have hnp : (!(p e)) = true := by simp [hp']
        rw [if_neg hp, if_pos hnp]
        simp only [sortEv]
        rw [ih]
        apply insertEv_append_right
        intro a ha
        have hamem : a ∈ es.filter p := (mem_sortEv a _).1 ha
        have hap : p a = true := (List.mem_filter.1 hamem).2
        exact (hcl a e hap hp').2

theorem tickLe_closed (k : Int) (e f : EventStore)
    (he : decide (e.tick ≤ k) = true) (hf : decide (f.tick ≤ k) = false) :
    keyLe e f = true ∧ keyLe f e = false := by
  have h1 : e.tick ≤ k := of_decide_eq_true he
  have h2 : ¬(f.tick ≤ k) := of_decide_eq_false hf
  have h3 : e.tick < f.tick := by omega
  constructor
  · unfold keyLe
    have : decide (e.tick < f.tick) = true := decide_eq_true h3
    rw [this]
    rfl
  · unfold keyLe
    rw [Bool.or_eq_false_iff]
    constructor
    · simp only [decide_eq_false_iff_not]
      omega
    · rw [Bool.and_eq_false_iff]
      left
      simp only [beq_eq_false_iff_ne, ne_eq]
      omega

theorem replayUpTo_split {σ : Type} (h : σ → EventStore → σ) (init : σ)
    (log : List EventStore) (k t : Int) (hkt : k ≤ t) :
    replayUpTo h init log t
      = replayRange h (replayUpTo h init log k) log k t := by
  unfold replayUpTo replayRange
  rw [sortEv_partition (fun e => decide (e.tick ≤ k))
    (fun e f he hf => tickLe_closed k e f he hf)
    (log.filter (fun e => decide (e.tick ≤ t)))]
  rw [List.foldl_append]
  rw [List.filter_filter, List.filter_filter]
  have h1 : List.filter (fun a => decide (a.tick ≤ k) && decide (a.tick ≤ t)) log
      = List.filter (fun e => decide (e.tick ≤ k)) log := by
    apply List.filter_congr
    intro a _
    by_cases hk : a.tick ≤ k
    · have ht : a.tick ≤ t := le_trans hk hkt
      simp [hk, ht]
    · simp [hk]
  have h2 : List.filter
        (fun a => (!decide (a.tick ≤ k)) && decide (a.tick ≤ t)) log
      = List.filter (fun e => decide (k < e.tick) && decide (e.tick ≤ t)) log := by
    apply List.filter_congr
    intro a _
    by_cases hk : a.tick ≤ k
    · have hlt : ¬(k < a.tick) := by omega
      simp [hk, hlt]
    · have hlt : k < a.tick := by omega
      simp [hk, hlt]
  rw [h1, h2]

theorem latest_aux {σ : Type} (t : Int) (l : List (Int × σ)) :
    ∀ (acc : Option (Int × σ)) (p : Int × σ),
      l.foldl (fun acc q =>
        if decide (q.1 ≤ t) then
          match acc with
          | none => some q
          | some r => if decide (r.1 < q.1) then some q else some r
        else acc) acc = some p →
      acc = some p ∨ (p ∈ l ∧ p.1 ≤ t) := by
  induction l with
  | nil => intro acc p h; exact Or.inl h
  | cons x xs ih =>
      intro acc p h
      rcases ih _ p h with hstep | hmem
      · cases acc with
        | none =>
            have h2 : (if decide (x.1 ≤ t) = true then some x else none)
                = some p := hstep
            by_cases hx : decide (x.1 ≤ t) = true
            · rw [if_pos hx] at h2
              injection h2 with he
              subst he
              exact Or.inr ⟨List.mem_cons_self _ _, of_decide_eq_true hx⟩
            · rw [if_neg hx] at h2
              exact Or.inl h2
        | some r =>
            have h2 : (if decide (x.1 ≤ t) = true then
                (if decide (r.1 < x.1) = true then some x else some r)
              else some r) = some p := hstep
            by_cases hx : decide (x.1 ≤ t) = true
            · rw [if_pos hx] at h2
              by_cases hr : decide (r.1 < x.1) = true
              · rw [if_pos hr] at h2
                injection h2 with he
                subst he
                exact Or.inr ⟨List.mem_cons_self _ _, of_decide_eq_true hx⟩
              · rw [if_neg hr] at h2
                exact Or.inl h2
            · rw [if_neg hx] at h2
              exact Or.inl h2
      · exact Or.inr ⟨List.mem_cons_of_mem _ hmem.1, hmem.2⟩

theorem latestSnapBefore_spec {σ : Type} (snaps : List (Int × σ)) (t : Int)
    (p : Int × σ) (h : latestSnapBefore snaps t = some p) :
    p ∈ snaps ∧ p.1 ≤ t := by
  rcases latest_aux t snaps none p h with h' | h'
  · exact Option.noConfusion h'
  · exact h'

theorem mem_eventsIn_self (l : List EventStore) (e : EventStore) (he : e ∈ l) :
    e ∈ eventsIn l e.world_id e.tick :=
  List.mem_filter.2 ⟨he, by simp⟩

/-- C1: in every reachable store, no two events share the same
(world, tick, seq_in_tick); every stored seq_in_tick is ≥ 0; and within
each (world, tick) cell the assigned sequence numbers are exactly
0, 1, …, n−1 — gap-free starting at 0. -/
theorem C1_total_order (s : Store) (h : Reachable s) :
    (∀ e ∈ s.events, ∀ f ∈ s.events,
      e.world_id = f.world_id → e.tick = f.tick →
      e.seq_in_tick = f.seq_in_tick → e = f) ∧
    (∀ e ∈ s.events, 0 ≤ e.seq_in_tick) ∧
    (∀ w t, (eventsAt s w t).map EventStore.seq_in_tick
        = (List.range (eventsAt s w t).length).map Int.ofNat) := by
  have hseq : SeqList s.events := (reachable_inv s h).1
  refine ⟨?_, ?_, hseq⟩
  · intro e he f hf hw ht hs
    have hmem_e : e ∈ eventsIn s.events e.world_id e.tick :=
      mem_eventsIn_self _ _ he
    have hmem_f : f ∈ eventsIn s.events e.world_id e.tick := by
      rw [hw, ht]
      exact mem_eventsIn_self _ _ hf
    have hnd : ((eventsIn s.events e.world_id e.tick).map
        EventStore.seq_in_tick).Nodup := by
      rw [hseq e.world_id e.tick]
      exact List.Nodup.map (fun i j hij => Int.ofNat.inj hij)
        (List.nodup_range _)
    exact List.inj_on_of_nodup_map hnd hmem_e hmem_f hs
  · intro e he
    have hmem := mem_eventsIn_self s.events e he
    have hin : e.seq_in_tick ∈ (eventsIn s.events e.world_id e.tick).map
        EventStore.seq_in_tick := List.mem_map_of_mem _ hmem
    rw [hseq e.world_id e.tick] at hin
    rcases List.mem_map.1 hin with ⟨i, _, hi⟩
    rw [← hi]
    exact Int.ofNat_nonneg i

/-- Witness for C1 on a two-append history in one world at tick 1. -/
theorem C1_total_order_witness :
    Reachable (run [Op.createWorld none 42 "v1" 60000,
      Op.append 0 1 "move" "p1" none none none none none,
      Op.append 0 1 "move" "p2" none none none none none]) ∧
    (eventsAt (run [Op.createWorld none 42 "v1" 60000,
      Op.append 0 1 "move" "p1" none none none none none,
      Op.append 0 1 "move" "p2" none none none none none]) 0 1).map
        EventStore.seq_in_tick
      = (List.range (eventsAt (run [Op.createWorld none 42 "v1" 60000,
          Op.append 0 1 "move" "p1" none none none none none,
          Op.append 0 1 "move" "p2" none none none none none]) 0 1).length).map
          Int.ofNat :=
  ⟨⟨[Op.createWorld none 42 "v1" 60000,
     Op.append 0 1 "move" "p1" none none none none none,
     Op.append 0 1 "move" "p2" none none none none none], rfl⟩,
   (C1_total_order _ ⟨[Op.createWorld none 42 "v1" 60000,
     Op.append 0 1 "move" "p1" none none none none none,
     Op.append 0 1 "move" "p2" none none none none none], rfl⟩).2.2 0 1⟩

/-- C2: replay determinism — when every snapshot's state equals the full
replay of the log up to the snapshot's tick (which is how the spec's
capture path produces snapshots), `state_at` computed from the latest
snapshot at tick ≤ T plus the (tick, seq_in_tick)-ordered log suffix equals
the full replay of the log from the default state up to T. -/
theorem C2_replay_determinism {σ : Type} (h : σ → EventStore → σ) (init : σ)
    (log : List EventStore) (snaps : List (Int × σ)) (t : Int)
    (hs : ∀ p ∈ snaps, p.2 = replayUpTo h init log p.1) :
    state_at h init log snaps t = replayUpTo h init log t := by
  unfold state_at
  cases hlb : latestSnapBefore snaps t with
  | none => rfl
  | some p =>
      obtain ⟨hmem, hle⟩ := latestSnapBefore_spec snaps t p hlb
      show replayRange h p.2 log p.1 t = replayUpTo h init log t
      rw [hs p hmem]
      exact (replayUpTo_split h init log p.1 t hle).symm

/-- Witness for C2: a two-event log, a valid snapshot at tick 1 and target
tick 2. -/
theorem C2_replay_determinism_witness :
    (∀ p ∈ [((1 : Int), (1 : Int))], p.2 =
      replayUpTo (fun (st : Int) (e : EventStore) => st + e.tick) 0
        [EventStore.mk 0 0 1 0 "move" none none none none "p1" none 1,
         EventStore.mk 1 0 2 0 "move" none none none none "p2" none 1] p.1) ∧
    state_at (fun (st : Int) (e : EventStore) => st + e.tick) 0
        [EventStore.mk 0 0 1 0 "move" none none none none "p1" none 1,
         EventStore.mk 1 0 2 0 "move" none none none none "p2" none 1]
        [((1 : Int), (1 : Int))] 2
      = replayUpTo (fun (st : Int) (e : EventStore) => st + e.tick) 0
        [EventStore.mk 0 0 1 0 "move" none none none none "p1" none 1,
         EventStore.mk 1 0 2 0 "move" none none none none "p2" none 1] 2 :=
  ⟨by decide,
   C2_replay_determinism (fun (st : Int) (e : EventStore) => st + e.tick) 0
     [EventStore.mk 0 0 1 0 "move" none none none none "p1" none 1,
      EventStore.mk 1 0 2 0 "move" none none none none "p2" none 1]
     [((1 : Int), (1 : Int))] 2 (by decide)⟩

/-- C3: in every reachable store at most one snapshot exists per
(world, tick), and a second capture at an already-captured (world, tick)
fails with AlreadyExists, leaves the store (hence the original snapshot)
unchanged. -/
theorem C3_snapshot_write_once (s : Store) (h : Reachable s) (w : WorldId)
    (t : Int) (ws : String) (ast : List (AgentId × String)) (wr : World)
    (sn : Snapshot) (hfw : findWorld s w = some wr)
    (hsn : sn ∈ s.snapshots) (hw : sn.world_id = w) (ht : sn.tick = t) :
    (∀ q1 ∈ s.snapshots, ∀ q2 ∈ s.snapshots,
      q1.world_id = q2.world_id → q1.tick = q2.tick → q1 = q2) ∧
    capture s w t ws ast = .error .AlreadyExists ∧
    applyOp s (Op.capture w t ws ast) = s ∧
    sn ∈ (applyOp s (Op.capture w t ws ast)).snapshots := by
  have hkeys := (reachable_inv s h).2.2.1
  have herr : capture s w t ws ast = .error .AlreadyExists := by
    unfold capture
    rw [hfw]
    rw [if_pos (List.any_eq_true.2 ⟨sn, hsn, by simp [hw, ht]⟩)]
  have happ : applyOp s (Op.capture w t ws ast) = s := by
    simp only [applyOp]
    rw [herr]
  refine ⟨?_, herr, happ, ?_⟩
  · intro q1 h1 q2 h2 hww htt
    exact List.inj_on_of_nodup_map hkeys h1 h2 (by rw [hww, htt])
  · rw [happ]
    exact hsn

/-- Witness for C3: capture at (world 0, tick 1) twice. -/
theorem C3_snapshot_write_once_witness :
    Reachable (run [Op.createWorld none 42 "v1" 60000,
      Op.capture 0 1 "state" []]) ∧
    findWorld (run [Op.createWorld none 42 "v1" 60000,
      Op.capture 0 1 "state" []]) 0
      = some (World.mk 0 none 42 "v1" 0 60000 "CREATED") ∧
    Snapshot.mk 1 0 1 "state" none ∈ (run [Op.createWorld none 42 "v1" 60000,
      Op.capture 0 1 "state" []]).snapshots ∧
    capture (run [Op.createWorld none 42 "v1" 60000,
      Op.capture 0 1 "state" []]) 0 1 "other" [] = .error .AlreadyExists :=
  ⟨⟨[Op.createWorld none 42 "v1" 60000, Op.capture 0 1 "state" []], rfl⟩,
   by decide, by decide,
   (C3_snapshot_write_once _
     ⟨[Op.createWorld none 42 "v1" 60000, Op.capture 0 1 "state" []], rfl⟩
     0 1 "other" [] (World.mk 0 none 42 "v1" 0 60000 "CREATED")
     (Snapshot.mk 1 0 1 "state" none)
     (by decide) (by decide) (by decide) (by decide)).2.1⟩

/-- C7: in every reachable store each world's status is one of CREATED,
RUNNING, PAUSED, ARCHIVED, and a freshly created world has status CREATED
and current_tick 0 and is stored. -/
theorem C7_world_status (s : Store) (h : Reachable s) (n : Option String)
    (sd : Int) (gv : String) (tu : Int) :
    (∀ r ∈ s.worlds, r.status = "CREATED" ∨ r.status = "RUNNING" ∨
      r.status = "PAUSED" ∨ r.status = "ARCHIVED") ∧
    (createWorld s n sd gv tu).2.status = "CREATED" ∧
    (createWorld s n sd gv tu).2.current_tick = 0 ∧
    (createWorld s n sd gv tu).2 ∈ (createWorld s n sd gv tu).1.worlds := by
  refine ⟨?_, rfl, rfl, ?_⟩
  · intro r hr
    exact (reachable_inv s h).2.2.2.1 r hr
  · simp [createWorld]

/-- Witness for C7 on a freshly created world after one status change. -/
theorem C7_world_status_witness :
    Reachable (run [Op.createWorld none 42 "v1" 60000,
      Op.setStatus 0 WorldStatus.RUNNING]) ∧
    (∀ r ∈ (run [Op.createWorld none 42 "v1" 60000,
        Op.setStatus 0 WorldStatus.RUNNING]).worlds,
      r.status = "CREATED" ∨ r.status = "RUNNING" ∨
      r.status = "PAUSED" ∨ r.status = "ARCHIVED") :=
  ⟨⟨[Op.createWorld none 42 "v1" 60000, Op.setStatus 0 WorldStatus.RUNNING],
     rfl⟩,
   (C7_world_status _
     ⟨[Op.createWorld none 42 "v1" 60000, Op.setStatus 0 WorldStatus.RUNNING],
      rfl⟩ none 0 "x" 0).1⟩

theorem setStatus_events (s : Store) (w : WorldId) (st : WorldStatus)
    (s' : Store) (hok : setStatus s w st = .ok s') : s'.events = s.events := by
  unfold setStatus at hok
  cases hfw : findWorld s w with
  | none => rw [hfw] at hok; cases hok
  | some wr => rw [hfw] at hok; cases hok; rfl

theorem advanceTick_events (s : Store) (w : WorldId) (s' : Store)
    (hok : advanceTick s w = .ok s') : s'.events = s.events := by
  unfold advanceTick at hok
  cases hfw : findWorld s w with
  | none => rw [hfw] at hok; cases hok
  | some wr => rw [hfw] at hok; cases hok; rfl

theorem createAgent_events (s : Store) (w : WorldId) (n : String) (sx : Int)
    (b : Int) (x y : Int) (stj : String) (s' : Store) (a : Agent)
    (hok : createAgent s w n sx b x y stj = .ok (s', a)) :
    s'.events = s.events := by
  unfold createAgent at hok
  cases hfw : findWorld s w with
  | none => rw [hfw] at hok; cases hok
  | some wr =>
      rw [hfw] at hok
      injection hok with hok'
      injection hok' with hs ha
      rw [← hs]

theorem setRelationship_events (s : Store) (w : WorldId) (a b : AgentId)
    (v : RelValues) (t : Int) (s' : Store)
    (hok : setRelationship s w a b v t = .ok s') : s'.events = s.events := by
  unfold setRelationship at hok
  cases hfw : findWorld s w with
  | none => rw [hfw] at hok; cases hok
  | some wr =>
      rw [hfw] at hok
      by_cases hc1 : (!(agentRefOk s w (some a))) = true
      · rw [if_pos hc1] at hok; cases hok
      · rw [if_neg hc1] at hok
        by_cases hc2 : (!(agentRefOk s w (some b))) = true
        · rw [if_pos hc2] at hok; cases hok
        · rw [if_neg hc2] at hok
          by_cases hany : (s.relationships.any (fun r =>
              r.world_id == w && r.a_agent_id == a && r.b_agent_id == b)) = true
          · rw [if_pos hany] at hok; cases hok; rfl
          · rw [if_neg hany] at hok; cases hok; rfl

/-- C4: an event row, once stored, survives every operation with all its
fields (actor, target, causal parent included) intact, except when the
operation is the cascading deletion of its own world. -/
theorem C4_event_immutability (s : Store) (op : Op) (e : EventStore)
    (he : e ∈ s.events) :
    e ∈ (applyOp s op).events ∨
    ∃ w, op = Op.deleteWorld w ∧ e.world_id = w := by
  cases op with
  | createWorld n sd gv tu =>
      left
      simp only [applyOp, createWorld]
      exact he
  | setStatus w st =>
      left
      simp only [applyOp]
      cases hok : setStatus s w st with
      | error _ => exact he
      | ok s' => rw [setStatus_events s w st s' hok]; exact he
  | advanceTick w =>
      left
      simp only [applyOp]
      cases hok : advanceTick s w with
      | error _ => exact he
      | ok s' => rw [advanceTick_events s w s' hok]; exact he
  | createAgent w n sx b x y st =>
      left
      simp only [applyOp]
      cases hok : createAgent s w n sx b x y st with
      | error _ => exact he
      | ok p => rw [createAgent_events s w n sx b x y st p.1 p.2 hok]; exact he
  | setRelationship w a b v t =>
      left
      simp only [applyOp]
      cases hok : setRelationship s w a b v t with
      | error _ => exact he
      | ok s' => rw [setRelationship_events s w a b v t s' hok]; exact he
  | append w t et pl ac tg x y cb =>
      left
      simp only [applyOp]
      cases hok : appendEvent s w t et pl ac tg x y cb with
      | error _ => exact he
      | ok p =>
          obtain ⟨_, hs, _⟩ := appendEvent_ok s w t et pl ac tg x y cb p.1 p.2 hok
          show e ∈ p.1.events
          rw [hs]
          exact List.mem_append.2 (Or.inl he)
  | capture w t ws ast =>
      left
      simp only [applyOp]
      cases hok : capture s w t ws ast with
      | error _ => exact he
      | ok p =>
          obtain ⟨_, hs, _⟩ := capture_ok s w t ws ast p.1 p.2 hok
          show e ∈ p.1.events
          rw [hs]
          exact he
  | deleteWorld w =>
      by_cases hw : e.world_id = w
      · exact Or.inr ⟨w, rfl, hw⟩
      · left
        simp only [applyOp]
        cases hok : deleteWorld s w with
        | error _ => exact he
        | ok s' =>
            rw [deleteWorld_ok s w s' hok]
            exact List.mem_filter.2 ⟨he, by simp [hw]⟩

/-- Witness for C4: a stored event survives a status change untouched. -/
theorem C4_event_immutability_witness :
    (EventStore.mk 1 0 1 0 "move" none none none none "p1" none 1
      ∈ (run [Op.createWorld none 42 "v1" 60000,
          Op.append 0 1 "move" "p1" none none none none none]).events) ∧
    (EventStore.mk 1 0 1 0 "move" none none none none "p1" none 1
      ∈ (applyOp (run [Op.createWorld none 42 "v1" 60000,
          Op.append 0 1 "move" "p1" none none none none none])
          (Op.setStatus 0 WorldStatus.RUNNING)).events ∨
     ∃ w, Op.setStatus 0 WorldStatus.RUNNING = Op.deleteWorld w ∧
       (EventStore.mk 1 0 1 0 "move" none none none none "p1" none 1).world_id
         = w) :=
  ⟨by decide,
   C4_event_immutability
     (run [Op.createWorld none 42 "v1" 60000,
       Op.append 0 1 "move" "p1" none none none none none])
     (Op.setStatus 0 WorldStatus.RUNNING)
     (EventStore.mk 1 0 1 0 "move" none none none none "p1" none 1)
     (by decide)⟩

/-- C5: an append whose caused_by names no event of the same world with
tick ≤ the new tick fails with ReferentialIntegrity, writes no event, and
in every reachable store each stored causal parent lies in the same world
with parent tick ≤ child tick. -/
theorem C5_causality (s : Store) (h : Reachable s) (w : WorldId) (tick : Int)
    (et pl : String) (ac tg : Option AgentId) (x y : Option Int)
    (pid : EventId) (wr : World) (hfw : findWorld s w = some wr)
    (hviol : ∀ p ∈ s.events, p.event_id = pid →
      ¬(p.world_id = w ∧ p.tick ≤ tick)) :
    appendEvent s w tick et pl ac tg x y (some pid)
      = .error .ReferentialIntegrity ∧
    applyOp s (Op.append w tick et pl ac tg x y (some pid)) = s ∧
    (∀ e ∈ s.events, ∀ q, e.caused_by_event_id = some q →
      ∃ p ∈ s.events, p.event_id = q ∧ p.world_id = e.world_id ∧
        p.tick ≤ e.tick) := by
  have herr : appendEvent s w tick et pl ac tg x y (some pid)
      = .error .ReferentialIntegrity := by
    unfold appendEvent
    rw [hfw]
    by_cases hc1 : (!(agentRefOk s w ac)) = true
    · rw [if_pos hc1]
    · rw [if_neg hc1]
      by_cases hc2 : (!(agentRefOk s w tg)) = true
      · rw [if_pos hc2]
      · rw [if_neg hc2]
        have hcf : causeRefOk s w tick (some pid) = false := by
          simp only [causeRefOk]
          cases hf : s.events.find? (fun e => e.event_id == pid) with
          | none => rfl
          | some p =>
              have hmem := List.mem_of_find?_eq_some hf
              have hpr := List.find?_some hf
              simp only [beq_iff_eq] at hpr
              have hnot := hviol p hmem hpr
              by_cases hww : p.world_id = w
              · have hnle : ¬(p.tick ≤ tick) := fun hle => hnot ⟨hww, hle⟩
                simp [hnle]
              · simp [hww]
        rw [if_pos (by rw [hcf]; rfl)]
  have happ : applyOp s (Op.append w tick et pl ac tg x y (some pid)) = s := by
    simp only [applyOp]
    rw [herr]
  exact ⟨herr, happ, (reachable_inv s h).2.1⟩

/-- Witness for C5: a caused_by naming a nonexistent event id. -/
theorem C5_causality_witness :
    Reachable (run [Op.createWorld none 7 "g" 1000]) ∧
    findWorld (run [Op.createWorld none 7 "g" 1000]) 0
      = some (World.mk 0 none 7 "g" 0 1000 "CREATED") ∧
    (∀ p ∈ (run [Op.createWorld none 7 "g" 1000]).events,
      p.event_id = 99 → ¬(p.world_id = 0 ∧ p.tick ≤ 5)) ∧
    appendEvent (run [Op.createWorld none 7 "g" 1000]) 0 5 "move" "p"
        none none none none (some 99) = .error .ReferentialIntegrity :=
  ⟨⟨[Op.createWorld none 7 "g" 1000], rfl⟩, by decide, by decide,
   (C5_causality (run [Op.createWorld none 7 "g" 1000])
     ⟨[Op.createWorld none 7 "g" 1000], rfl⟩ 0 5 "move" "p"
     none none none none 99 (World.mk 0 none 7 "g" 0 1000 "CREATED")
     (by decide) (by decide)).1⟩

theorem findWorld_none_of (s : Store) (w : WorldId)
    (h : ∀ r ∈ s.worlds, r.world_id ≠ w) : findWorld s w = none := by
  unfold findWorld
  rw [List.find?_eq_none]
  intro x hx
  simp [h x hx]

theorem readWorld_notfound (s : Store) (w : WorldId)
    (h : findWorld s w = none) : readWorld s w = .error .NotFound := by
  unfold readWorld
  rw [h]

theorem readEvents_notfound (s : Store) (w : WorldId) (lo hi : Int)
    (h : findWorld s w = none) :
    readEvents s w lo hi = .error .NotFound := by
  unfold readEvents
  rw [h]

/-- C6: deleting a world removes all of its events, snapshots (with their
per-agent captures), agents and relationships; a subsequent read fails
with NotFound; records of every other world are untouched. -/
theorem C6_world_cascade (s : Store) (h : Reachable s) (w : WorldId)
    (s' : Store) (hok : deleteWorld s w = .ok s') :
    readWorld s' w = .error .NotFound ∧
    (∀ lo hi, readEvents s' w lo hi = .error .NotFound) ∧
    (∀ e ∈ s'.events, e.world_id ≠ w) ∧
    (∀ sn ∈ s'.snapshots, sn.world_id ≠ w) ∧
    (∀ a ∈ s'.agents, a.world_id ≠ w) ∧
    (∀ r ∈ s'.relationships, r.world_id ≠ w) ∧
    (∀ r : World, r.world_id ≠ w → (r ∈ s.worlds ↔ r ∈ s'.worlds)) ∧
    (∀ e : EventStore, e.world_id ≠ w → (e ∈ s.events ↔ e ∈ s'.events)) ∧
    (∀ sn : Snapshot, sn.world_id ≠ w →
      (sn ∈ s.snapshots ↔ sn ∈ s'.snapshots)) ∧
    (∀ a : Agent, a.world_id ≠ w → (a ∈ s.agents ↔ a ∈ s'.agents)) ∧
    (∀ r : Relationship, r.world_id ≠ w →
      (r ∈ s.relationships ↔ r ∈ s'.relationships)) ∧
    (∀ asn ∈ s.agent_snapshots, (asn ∈ s'.agent_snapshots ↔
      ∃ sn ∈ s.snapshots, sn.snapshot_id = asn.snapshot_id ∧
        sn.world_id ≠ w)) := by
  obtain ⟨h1, h2, h3, h4, h5, h6, h7, h8⟩ := reachable_inv s h
  have hs' := deleteWorld_ok s w s' hok
  subst hs'
  have hfwn : findWorld { s with
      worlds := s.worlds.filter (fun r => !(r.world_id == w)),
      agents := s.agents.filter (fun a => !(a.world_id == w)),
      relationships := s.relationships.filter (fun r => !(r.world_id == w)),
      events := s.events.filter (fun e => !(e.world_id == w)),
      snapshots := s.snapshots.filter (fun sn => !(sn.world_id == w)),
      agent_snapshots := s.agent_snapshots.filter (fun asn =>
        !((s.snapshots.filter (fun sn => sn.world_id == w)).any
           (fun sn => sn.snapshot_id == asn.snapshot_id))) } w = none := by
    apply findWorld_none_of
    intro r hr
    have hr2 := (List.mem_filter.1 hr).2
    simp only [Bool.not_eq_true', beq_eq_false_iff_ne, ne_eq] at hr2
    exact hr2
  refine ⟨readWorld_notfound _ _ hfwn,
    fun lo hi => readEvents_notfound _ _ lo hi hfwn, ?_, ?_, ?_, ?_,
    ?_, ?_, ?_, ?_, ?_, ?_⟩
  · intro e he
    have he2 := (List.mem_filter.1 he).2
    simpa using he2
  · intro sn hsn
    have h2' := (List.mem_filter.1 hsn).2
    simpa using h2'
  · intro a ha
    have h2' := (List.mem_filter.1 ha).2
    simpa using h2'
  · intro r hr
    have h2' := (List.mem_filter.1 hr).2
    simpa using h2'
  · intro r hne
    exact ⟨fun hr => List.mem_filter.2 ⟨hr, by simp [hne]⟩,
      fun hr => List.mem_of_mem_filter hr⟩
  · intro e hne
    exact ⟨fun hr => List.mem_filter.2 ⟨hr, by simp [hne]⟩,
      fun hr => List.mem_of_mem_filter hr⟩
  · intro sn hne
    exact ⟨fun hr => List.mem_filter.2 ⟨hr, by simp [hne]⟩,
      fun hr => List.mem_of_mem_filter hr⟩
  · intro a hne
    exact ⟨fun hr => List.mem_filter.2 ⟨hr, by simp [hne]⟩,
      fun hr => List.mem_of_mem_filter hr⟩
  · intro r hne
    exact ⟨fun hr => List.mem_filter.2 ⟨hr, by simp [hne]⟩,
      fun hr => List.mem_of_mem_filter hr⟩
  · intro asn hasn
    constructor
    · intro hmem
      have hcond := (List.mem_filter.1 hmem).2
      have hdead : ((s.snapshots.filter (fun sn => sn.world_id == w)).any
          (fun sn => sn.snapshot_id == asn.snapshot_id)) = false := by
        simpa using hcond
      obtain ⟨q, hq, hid⟩ := h8 asn hasn
      refine ⟨q, hq, hid, ?_⟩
      intro hqw
      have hq2 : (q.world_id == w) = true := by simp [hqw]
      have : (s.snapshots.filter (fun sn => sn.world_id == w)).any
          (fun sn => sn.snapshot_id == asn.snapshot_id) = true :=
        List.any_eq_true.2 ⟨q, List.mem_filter.2 ⟨hq, hq2⟩, by simp [hid]⟩
      rw [hdead] at this
      cases this
    · rintro ⟨q, hq, hid, hqw⟩
      apply List.mem_filter.2
      refine ⟨hasn, ?_⟩
      simp only [Bool.not_eq_true']
      by_contra hcontra
      have hany : ((s.snapshots.filter (fun sn => sn.world_id == w)).any
          (fun sn => sn.snapshot_id == asn.snapshot_id)) = true := by
        cases hval : ((s.snapshots.filter (fun sn => sn.world_id == w)).any
            (fun sn => sn.snapshot_id == asn.snapshot_id)) with
        | false => exact absurd hval hcontra
        | true => rfl
      obtain ⟨d, hd, hdid⟩ := List.any_eq_true.1 hany
      have hdmem := List.mem_filter.1 hd
      have hdw : d.world_id = w := by
        have := hdmem.2
        simpa using this
      have hdid' : d.snapshot_id = asn.snapshot_id := by simpa using hdid
      have hdq : d = q :=
        List.inj_on_of_nodup_map h6 hdmem.1 hq (by rw [hdid', hid])
      rw [hdq] at hdw
      exact hqw hdw

/-- Witness for C6: delete a world owning an event, an agent and a
snapshot. -/
theorem C6_world_cascade_witness :
    Reachable (run [Op.createWorld none 42 "v1" 60000,
      Op.createAgent 0 "A" 0 0 0 0 "{}",
      Op.append 0 1 "move" "p1" none none none none none,
      Op.capture 0 1 "state" []]) ∧
    deleteWorld (run [Op.createWorld none 42 "v1" 60000,
      Op.createAgent 0 "A" 0 0 0 0 "{}",
      Op.append 0 1 "move" "p1" none none none none none,
      Op.capture 0 1 "state" []]) 0
      = .ok (run [Op.createWorld none 42 "v1" 60000,
          Op.createAgent 0 "A" 0 0 0 0 "{}",
          Op.append 0 1 "move" "p1" none none none none none,
          Op.capture 0 1 "state" [], Op.deleteWorld 0]) ∧
    readWorld (run [Op.createWorld none 42 "v1" 60000,
      Op.createAgent 0 "A" 0 0 0 0 "{}",
      Op.append 0 1 "move" "p1" none none none none none,
      Op.capture 0 1 "state" [], Op.deleteWorld 0]) 0
      = .error .NotFound :=
  ⟨⟨[Op.createWorld none 42 "v1" 60000,
     Op.createAgent 0 "A" 0 0 0 0 "{}",
     Op.append 0 1 "move" "p1" none none none none none,
     Op.capture 0 1 "state" []], rfl⟩,
   rfl,
   (C6_world_cascade (run [Op.createWorld none 42 "v1" 60000,
      Op.createAgent 0 "A" 0 0 0 0 "{}",
      Op.append 0 1 "move" "p1" none none none none none,
      Op.capture 0 1 "state" []])
     ⟨[Op.createWorld none 42 "v1" 60000,
       Op.createAgent 0 "A" 0 0 0 0 "{}",
       Op.append 0 1 "move" "p1" none none none none none,
       Op.capture 0 1 "state" []], rfl⟩ 0
     (run [Op.createWorld none 42 "v1" 60000,
       Op.createAgent 0 "A" 0 0 0 0 "{}",
       Op.append 0 1 "move" "p1" none none none none none,
       Op.capture 0 1 "state" [], Op.deleteWorld 0])
     rfl).1⟩

theorem setRelationship_mem (s : Store) (w : WorldId) (a b : AgentId)
    (v : RelValues) (t : Int) (s' : Store)
    (hok : setRelationship s w a b v t = .ok s') :
    relRow w a b v t ∈ s'.relationships := by
  unfold setRelationship at hok
  cases hfw : findWorld s w with
  | none => rw [hfw] at hok; cases hok
  | some wr =>
      rw [hfw] at hok
      by_cases hc1 : (!(agentRefOk s w (some a))) = true
      · rw [if_pos hc1] at hok; cases hok
      · rw [if_neg hc1] at hok
        by_cases hc2 : (!(agentRefOk s w (some b))) = true
        · rw [if_pos hc2] at hok; cases hok
        · rw [if_neg hc2] at hok
          by_cases hany : (s.relationships.any (fun r =>
              r.world_id == w && r.a_agent_id == a && r.b_agent_id == b)) = true
          · rw [if_pos hany] at hok
            cases hok
            obtain ⟨r, hr, hcond⟩ := List.any_eq_true.1 hany
            exact List.mem_map.2 ⟨r, hr, by rw [if_pos hcond]⟩
          · rw [if_neg hany] at hok
            cases hok
            exact List.mem_append.2 (Or.inr (List.mem_singleton.2 rfl))

theorem setRelationship_preserve (s : Store) (w : WorldId) (a b : AgentId)
    (v : RelValues) (t : Int) (s' : Store)
    (hok : setRelationship s w a b v t = .ok s')
    (r : Relationship) (hr : r ∈ s.relationships)
    (hne : ¬(r.world_id = w ∧ r.a_agent_id = a ∧ r.b_agent_id = b)) :
    r ∈ s'.relationships := by
  unfold setRelationship at hok
  cases hfw : findWorld s w with
  | none => rw [hfw] at hok; cases hok
  | some wr =>
      rw [hfw] at hok
      by_cases hc1 : (!(agentRefOk s w (some a))) = true
      · rw [if_pos hc1] at hok; cases hok
      · rw [if_neg hc1] at hok
        by_cases hc2 : (!(agentRefOk s w (some b))) = true
        · rw [if_pos hc2] at hok; cases hok
        · rw [if_neg hc2] at hok
          by_cases hany : (s.relationships.any (fun q =>
              q.world_id == w && q.a_agent_id == a && q.b_agent_id == b)) = true
          · rw [if_pos hany] at hok
            cases hok
            have hcond : ¬((r.world_id == w && r.a_agent_id == a &&
                r.b_agent_id == b) = true) := by
              simp only [Bool.and_eq_true, beq_iff_eq]
              intro hcontra
              exact hne ⟨hcontra.1.1, hcontra.1.2, hcontra.2⟩
            exact List.mem_map.2 ⟨r, hr, by rw [if_neg hcond]⟩
          · rw [if_neg hany] at hok
            cases hok
            exact List.mem_append.2 (Or.inl hr)

/-- C8: relationships are keyed by (world, a_agent, b_agent): in every
reachable store there is at most one row per directed key, and upserting
(a, b) then (b, a) with a ≠ b leaves both directed rows stored with their
independent attribute values — the store never merges the two
orientations. -/
theorem C8_directed_edges (s : Store) (h : Reachable s) (w : WorldId)
    (a b : AgentId) (v1 v2 : RelValues) (t1 t2 : Int) (s1 s2 : Store)
    (hab : a ≠ b)
    (h1 : setRelationship s w a b v1 t1 = .ok s1)
    (h2 : setRelationship s1 w b a v2 t2 = .ok s2) :
    (∀ r1 ∈ s.relationships, ∀ r2 ∈ s.relationships,
      r1.world_id = r2.world_id → r1.a_agent_id = r2.a_agent_id →
      r1.b_agent_id = r2.b_agent_id → r1 = r2) ∧
    relRow w a b v1 t1 ∈ s2.relationships ∧
    relRow w b a v2 t2 ∈ s2.relationships := by
  refine ⟨?_, ?_, setRelationship_mem s1 w b a v2 t2 s2 h2⟩
  · intro r1 hr1 r2 hr2 hww haa hbb
    exact List.inj_on_of_nodup_map (reachable_inv s h).2.2.2.2.1 hr1 hr2
      (by rw [hww, haa, hbb])
  · apply setRelationship_preserve s1 w b a v2 t2 s2 h2 _
      (setRelationship_mem s w a b v1 t1 s1 h1)
    intro hcontra
    exact hab hcontra.2.1

/-- Witness for C8: upsert (1, 2) then (2, 1) in world 0. -/
theorem C8_directed_edges_witness :
    Reachable (run [Op.createWorld none 1 "g" 60000,
      Op.createAgent 0 "A" 0 0 0 0 "{}",
      Op.createAgent 0 "B" 0 0 0 0 "{}"]) ∧
    (1 : AgentId) ≠ 2 ∧
    setRelationship (run [Op.createWorld none 1 "g" 60000,
      Op.createAgent 0 "A" 0 0 0 0 "{}",
      Op.createAgent 0 "B" 0 0 0 0 "{}"]) 0 1 2 (RelValues.mk 1 0 0 0) 3
      = .ok (run [Op.createWorld none 1 "g" 60000,
          Op.createAgent 0 "A" 0 0 0 0 "{}",
          Op.createAgent 0 "B" 0 0 0 0 "{}",
          Op.setRelationship 0 1 2 (RelValues.mk 1 0 0 0) 3]) ∧
    setRelationship (run [Op.createWorld none 1 "g" 60000,
      Op.createAgent 0 "A" 0 0 0 0 "{}",
      Op.createAgent 0 "B" 0 0 0 0 "{}",
      Op.setRelationship 0 1 2 (RelValues.mk 1 0 0 0) 3]) 0 2 1
        (RelValues.mk 0 1 0 0) 4
      = .ok (run [Op.createWorld none 1 "g" 60000,
          Op.createAgent 0 "A" 0 0 0 0 "{}",
          Op.createAgent 0 "B" 0 0 0 0 "{}",
          Op.setRelationship 0 1 2 (RelValues.mk 1 0 0 0) 3,
          Op.setRelationship 0 2 1 (RelValues.mk 0 1 0 0) 4]) ∧
    relRow 0 1 2 (RelValues.mk 1 0 0 0) 3
      ∈ (run [Op.createWorld none 1 "g" 60000,
          Op.createAgent 0 "A" 0 0 0 0 "{}",
          Op.createAgent 0 "B" 0 0 0 0 "{}",
          Op.setRelationship 0 1 2 (RelValues.mk 1 0 0 0) 3,
          Op.setRelationship 0 2 1 (RelValues.mk 0 1 0 0) 4]).relationships ∧
    relRow 0 2 1 (RelValues.mk 0 1 0 0) 4
      ∈ (run [Op.createWorld none 1 "g" 60000,
          Op.createAgent 0 "A" 0 0 0 0 "{}",
          Op.createAgent 0 "B" 0 0 0 0 "{}",
          Op.setRelationship 0 1 2 (RelValues.mk 1 0 0 0) 3,
          Op.setRelationship 0 2 1 (RelValues.mk 0 1 0 0) 4]).relationships :=
  ⟨⟨[Op.createWorld none 1 "g" 60000,
     Op.createAgent 0 "A" 0 0 0 0 "{}",
     Op.createAgent 0 "B" 0 0 0 0 "{}"], rfl⟩,
   by decide, rfl, rfl,
   (C8_directed_edges (run [Op.createWorld none 1 "g" 60000,
      Op.createAgent 0 "A" 0 0 0 0 "{}",
      Op.createAgent 0 "B" 0 0 0 0 "{}"])
     ⟨[Op.createWorld none 1 "g" 60000,
       Op.createAgent 0 "A" 0 0 0 0 "{}",
       Op.createAgent 0 "B" 0 0 0 0 "{}"], rfl⟩
     0 1 2 (RelValues.mk 1 0 0 0) (RelValues.mk 0 1 0 0) 3 4
     (run [Op.createWorld none 1 "g" 60000,
       Op.createAgent 0 "A" 0 0 0 0 "{}",
       Op.createAgent 0 "B" 0 0 0 0 "{}",
       Op.setRelationship 0 1 2 (RelValues.mk 1 0 0 0) 3])
     (run [Op.createWorld none 1 "g" 60000,
       Op.createAgent 0 "A" 0 0 0 0 "{}",
       Op.createAgent 0 "B" 0 0 0 0 "{}",
       Op.setRelationship 0 1 2 (RelValues.mk 1 0 0 0) 3,
       Op.setRelationship 0 2 1 (RelValues.mk 0 1 0 0) 4])
     (by decide) rfl rfl).2.1,
   (C8_directed_edges (run [Op.createWorld none 1 "g" 60000,
      Op.createAgent 0 "A" 0 0 0 0 "{}",
      Op.createAgent 0 "B" 0 0 0 0 "{}"])
     ⟨[Op.createWorld none 1 "g" 60000,
       Op.createAgent 0 "A" 0 0 0 0 "{}",
       Op.createAgent 0 "B" 0 0 0 0 "{}"], rfl⟩
     0 1 2 (RelValues.mk 1 0 0 0) (RelValues.mk 0 1 0 0) 3 4
     (run [Op.createWorld none 1 "g" 60000,
       Op.createAgent 0 "A" 0 0 0 0 "{}",
       Op.createAgent 0 "B" 0 0 0 0 "{}",
       Op.setRelationship 0 1 2 (RelValues.mk 1 0 0 0) 3])
     (run [Op.createWorld none 1 "g" 60000,
       Op.createAgent 0 "A" 0 0 0 0 "{}",
       Op.createAgent 0 "B" 0 0 0 0 "{}",
       Op.setRelationship 0 1 2 (RelValues.mk 1 0 0 0) 3,
       Op.setRelationship 0 2 1 (RelValues.mk 0 1 0 0) 4])
     (by decide) rfl rfl).2.2⟩

end Infra

namespace Model

/-- C9: `Agent.move` with direction `"up"` increases `y` by exactly 1,
`"down"` decreases `y` by 1, `"left"` decreases `x` by 1, `"right"`
increases `x` by 1; any other direction string leaves both coordinates
unchanged; in every case every other field of the agent (entity_id, name,
gender, health, years, bag) is unchanged — the record-update equalities
assert exactly that. -/
theorem C9_agent_move (a actor : AgentM) (d : String) :
    a.move actor "up" = { a with y := a.y + 1 } ∧
    a.move actor "down" = { a with y := a.y - 1 } ∧
    a.move actor "left" = { a with x := a.x - 1 } ∧
    a.move actor "right" = { a with x := a.x + 1 } ∧
    (d ≠ "up" → d ≠ "down" → d ≠ "left" → d ≠ "right" →
      a.move actor d = a) := by
  refine ⟨?_, ?_, ?_, ?_, ?_⟩
  · simp [AgentM.move]
  · simp [AgentM.move]
  · simp [AgentM.move]
  · simp [AgentM.move]
  · intro h1 h2 h3 h4
    simp [AgentM.move, h1, h2, h3, h4]

/-- Witness for C9 at a concrete agent and the direction `"jump"`. -/
theorem C9_agent_move_witness :
    ("jump" : String) ≠ "up" ∧
    (AgentM.mk 1 "Alice" 0 0 "F" 100 30 []).move
      (AgentM.mk 2 "Bob" 5 5 "M" 100 28 []) "jump"
      = AgentM.mk 1 "Alice" 0 0 "F" 100 30 [] :=
  ⟨by decide,
   (C9_agent_move (AgentM.mk 1 "Alice" 0 0 "F" 100 30 [])
      (AgentM.mk 2 "Bob" 5 5 "M" 100 28 []) "jump").2.2.2.2
     (by decide) (by decide) (by decide) (by decide)⟩

end Model

